import Mathlib

/-
Verification development for the real-estate RAG retrieval engine
(`real_estate_db.py`, `rag_pipeline.py`).

Modelling conventions:
- Python strings are modelled as lists of characters (`PyStr`), so that the
  string operations used by the code (join, strip, f-string concatenation)
  have transparent definitions.
- Python floats are modelled as exact rationals. The numeric constants of the
  code (the 1e-12 epsilon) are modelled as the corresponding exact rationals.
- External primitives that the repository only calls, never defines, are
  passed as parameters: the md5 hex digest (`hash`), the square root used by
  `np.linalg.norm` (`sq`), the LanceDB query (`tableSearch`), the embedding
  provider (`embed`), and the chat-completion call (`generate`).
- `np.argsort` with its default kind (quicksort/introsort) guarantees that the
  returned index list sorts the keys, but its tie order is unspecified (the
  numpy documentation marks the default kind as not stable). It is therefore
  passed as a parameter `argsortp`, and theorems about the ranking assume only
  the documented contract `IsArgsortDesc` about its output.
-/

set_option maxRecDepth 10000

namespace RealEstateRAG

/-- Python strings, modelled as their list of characters. -/
abbrev PyStr := List Char

/-- Characters removed by Python `str.strip()` with no argument. -/
def isPySpace (c : Char) : Bool := c.isWhitespace

/-- Python `s.strip()`: drop leading and trailing whitespace. -/
def pyStrip (s : PyStr) : PyStr :=
  ((s.dropWhile isPySpace).reverse.dropWhile isPySpace).reverse

/-- Python `sep.join(l)`. -/
def pyJoin (sep : PyStr) (l : List PyStr) : PyStr :=
  List.intercalate sep l

/-- A raw listing record, i.e. one entry of the `listings` array of the input
JSON file: a mapping in which every field may be absent. String-valued fields
are `Option PyStr`; `bedrooms` and `bathrooms` are numbers in the data. -/
structure Raw where
  neighborhood : Option PyStr
  price : Option PyStr
  bedrooms : Option ℚ
  bathrooms : Option ℚ
  house_size : Option PyStr
  description : Option PyStr
  neighborhood_description : Option PyStr
deriving DecidableEq

/-- Python truthiness of `raw.get(key)` for a string field: `None` (absent)
and the empty string are falsy, any non-empty string is truthy. -/
def truthy (o : Option PyStr) : Bool :=
  match o with
  | some s => !s.isEmpty
  | none => false

/-- Rendering of `raw.get(key, "")` inside an f-string, for a string field. -/
def renderOptStr (o : Option PyStr) : PyStr := o.getD []

/-- Rendering of `raw.get(key, "")` inside an f-string, for a numeric field.
The decimal digits Python would print are not load-bearing anywhere in this
development; only emptiness versus non-emptiness and determinism matter. -/
def renderOptNum (o : Option ℚ) : PyStr :=
  match o with
  | some q => (toString q).data
  | none => []

/-- The `parts` list built by `RealEstateDBManager.make_full_text`. The second
entry is the `Area:` segment, present exactly when
`raw.get("neighborhood_description")` is truthy. -/
def makeFullTextParts (raw : Raw) : List PyStr :=
  [ "Neighborhood: ".data ++ renderOptStr raw.neighborhood,
    if truthy raw.neighborhood_description then
      "Area: ".data ++ renderOptStr raw.neighborhood_description
    else [],
    "Price: ".data ++ renderOptStr raw.price,
    "Bedrooms: ".data ++ renderOptNum raw.bedrooms
      ++ ", Bathrooms: ".data ++ renderOptNum raw.bathrooms,
    "Size: ".data ++ renderOptStr raw.house_size,
    "Details: ".data ++ renderOptStr raw.description ]

/-- `RealEstateDBManager.make_full_text`:
`". ".join([p for p in parts if p]).strip()`. -/
def makeFullText (raw : Raw) : PyStr :=
  pyStrip (pyJoin ". ".data ((makeFullTextParts raw).filter (fun p => !p.isEmpty)))

/-- `compute_listing_id(full_text)`: the md5 hex digest of the UTF-8 encoded
full text. The digest itself is an external library primitive, so it is a
parameter `hash`; the repository-level content of the definition is that the
id is a deterministic function of `full_text` alone. -/
def computeListingId (hash : PyStr → PyStr) (full_text : PyStr) : PyStr :=
  hash full_text

/-- One stored row of the `real_estate_listing` table
(schema `RealEstateListing`). -/
structure Row where
  id : PyStr
  neighborhood : PyStr
  price : PyStr
  bedrooms : ℚ
  bathrooms : ℚ
  house_size : PyStr
  description : PyStr
  neighborhood_description : PyStr
  full_text : PyStr
  embedding : List ℚ
deriving DecidableEq

/-- The dict appended to `docs` for a new listing in `ingest_listings`
(fields defaulted exactly as in the source: `""` for strings, `0` for the
numeric fields). -/
def mkRow (lid : PyStr) (raw : Raw) (ft : PyStr) (emb : List ℚ) : Row :=
  { id := lid
    neighborhood := raw.neighborhood.getD []
    price := raw.price.getD []
    bedrooms := raw.bedrooms.getD 0
    bathrooms := raw.bathrooms.getD 0
    house_size := raw.house_size.getD []
    description := raw.description.getD []
    neighborhood_description := raw.neighborhood_description.getD []
    full_text := ft
    embedding := emb }

/-- The id snapshot taken at the start of an ingestion run:
`set(existing_df["id"].tolist())` over the current table contents. -/
def existingIds (T : List Row) : List PyStr := T.map Row.id

/-- Possible results of `embed_fn(full_text)` when it returns: either a
list/tuple of floats, or some other value (which fails the `isinstance`
check of `ingest_listings`). A raised exception is the `Except.error` case of
the embedding function itself. -/
inductive EmbRet where
  | vec (v : List ℚ)
  | notList
deriving DecidableEq

/-- The per-record loop of `ingest_listings`, accumulating `docs`. A record
whose id is in the snapshot is skipped; otherwise `embed_fn` is called: a
raised exception propagates, a non-list return raises `ValueError`, and a
returned list of ANY length is appended to `docs` (the source performs no
dimension check). The snapshot is never extended inside the loop. -/
def ingestAux (hash : PyStr → PyStr) (embed : PyStr → Except String EmbRet)
    (snapshot : List PyStr) : List Raw → List Row → Except String (List Row)
  | [], docs => .ok docs
  | raw :: rest, docs =>
    let ft := makeFullText raw
    let lid := computeListingId hash ft
    if lid ∈ snapshot then
      ingestAux hash embed snapshot rest docs
    else
      match embed ft with
      | .error e => .error e
      | .ok .notList => .error "embed_fn must return a list of floats"
      | .ok (.vec v) => ingestAux hash embed snapshot rest (docs ++ [mkRow lid raw ft v])

/-- `RealEstateDBManager.ingest_listings`, with the JSON file already parsed
into its `listings` list `L` and the table contents `T`. On success the new
table contents are the old rows followed by the accumulated `docs`
(`table.add(docs)` appends). On an exception nothing is written, because the
single `table.add` call at the end is never reached. -/
def ingestListings (hash : PyStr → PyStr) (embed : PyStr → Except String EmbRet)
    (T : List Row) (L : List Raw) : Except String (List Row) :=
  match ingestAux hash embed (existingIds T) L [] with
  | .ok docs => .ok (T ++ docs)
  | .error e => .error e

/-- The table contents observable by a full scan after an ingestion run:
the new contents on success, the unchanged old contents if the run raised. -/
def tableAfter (hash : PyStr → PyStr) (embed : PyStr → Except String EmbRet)
    (T : List Row) (L : List Raw) : List Row :=
  match ingestListings hash embed T L with
  | .ok T2 => T2
  | .error _ => T

/-! ## Python values and `_to_json_safe` (`rag_pipeline.py`) -/

mutual
/-- A Python value as it appears in the query result payloads: native
primitives, `None`, numpy boxed numerics (`np.floating` / `np.integer`),
lists and dicts. -/
inductive PyVal where
  | str (s : PyStr)
  | float (q : ℚ)
  | int (z : ℤ)
  | pynone
  | npFloat (q : ℚ)
  | npInt (z : ℤ)
  | plist (l : PyVList)
  | pdict (d : PyVDict)
deriving DecidableEq
/-- A Python list of values. -/
inductive PyVList where
  | nil
  | cons (v : PyVal) (t : PyVList)
deriving DecidableEq
/-- A Python dict with string keys, in insertion order. -/
inductive PyVDict where
  | nil
  | cons (k : PyStr) (v : PyVal) (t : PyVDict)
deriving DecidableEq
end

/-- Turn a Lean list of values into a `PyVList`. -/
def PyVList.ofList : List PyVal → PyVList
  | [] => .nil
  | v :: t => .cons v (PyVList.ofList t)

/-- Back from a `PyVList` to a Lean list of values. -/
def PyVList.toList : PyVList → List PyVal
  | .nil => []
  | .cons v t => v :: PyVList.toList t

/-- Build a `PyVDict` from key/value pairs. -/
def PyVDict.ofPairs : List (PyStr × PyVal) → PyVDict
  | [] => .nil
  | (k, v) :: t => .cons k v (PyVDict.ofPairs t)

/-- Dict lookup, first match (the dicts built here have distinct keys). -/
def PyVDict.get : PyVDict → PyStr → Option PyVal
  | .nil, _ => none
  | .cons k v t, key => if k = key then some v else PyVDict.get t key

/-- Lookup on a dict-valued `PyVal`; `none` on any other shape. -/
def dictGet (p : PyVal) (key : PyStr) : Option PyVal :=
  match p with
  | .pdict d => PyVDict.get d key
  | _ => none

mutual
/-- `_to_json_safe`: recursively convert numpy boxed numerics to native
`float` / `int`, descending into dicts and lists, leaving everything else
unchanged. -/
def PyVal.toJsonSafe : PyVal → PyVal
  | .pdict d => .pdict (PyVDict.toJsonSafe d)
  | .plist l => .plist (PyVList.toJsonSafe l)
  | .npFloat q => .float q
  | .npInt z => .int z
  | .str s => .str s
  | .float q => .float q
  | .int z => .int z
  | .pynone => .pynone
/-- `_to_json_safe` mapped over a Python list. -/
def PyVList.toJsonSafe : PyVList → PyVList
  | .nil => .nil
  | .cons v t => .cons (PyVal.toJsonSafe v) (PyVList.toJsonSafe t)
/-- `_to_json_safe` mapped over the values of a Python dict. -/
def PyVDict.toJsonSafe : PyVDict → PyVDict
  | .nil => .nil
  | .cons k v t => .cons k (PyVal.toJsonSafe v) (PyVDict.toJsonSafe t)
end

mutual
/-- True when a value contains no numpy boxed numeric anywhere. -/
def PyVal.noBoxed : PyVal → Bool
  | .npFloat _ => false
  | .npInt _ => false
  | .pdict d => PyVDict.noBoxed d
  | .plist l => PyVList.noBoxed l
  | _ => true
/-- `noBoxed` over a Python list. -/
def PyVList.noBoxed : PyVList → Bool
  | .nil => true
  | .cons v t => PyVal.noBoxed v && PyVList.noBoxed t
/-- `noBoxed` over a Python dict. -/
def PyVDict.noBoxed : PyVDict → Bool
  | .nil => true
  | .cons _ v t => PyVal.noBoxed v && PyVDict.noBoxed t
end

/-! ## Cosine similarity and ranking (`rag_pipeline.py`) -/

/-- The float literal `1e-12` added to the norms in
`_cosine_similarity_matrix`. -/
def npEps : ℚ := 1 / 10 ^ 12

/-- Dot product of two float vectors of equal length. -/
def dotQ (a b : List ℚ) : ℚ := (List.zipWith (· * ·) a b).sum

/-- `np.linalg.norm(v)`: the square root of the sum of squares. The square
root itself is a float-math primitive, passed in as `sq`. -/
def vecNorm (sq : ℚ → ℚ) (v : List ℚ) : ℚ := sq (dotQ v v)

/-- `_cosine_similarity_matrix(emb_matrix, q)`: every row and the query are
divided by their norm plus `1e-12`, then each normalized row is dotted with
the normalized query. -/
def cosineSimilarityMatrix (sq : ℚ → ℚ) (rows : List (List ℚ)) (q : List ℚ) : List ℚ :=
  let qn := q.map (fun x => x / (vecNorm sq q + npEps))
  rows.map (fun r => dotQ (r.map (fun x => x / (vecNorm sq r + npEps))) qn)

/-- The contract numpy documents for `np.argsort(-sims)` with the default
kind: the result is a permutation of the row indices that sorts the
similarities in descending order. The tie order is NOT part of the contract
(the default kind, quicksort/introsort, is documented as not stable). -/
def IsArgsortDesc (s : List ℚ) (p : List ℕ) : Prop :=
  p.Nodup ∧ p.length = s.length ∧ (∀ i ∈ p, i < s.length) ∧
    p.Pairwise (fun a b => s.getD b 0 ≤ s.getD a 0)

instance (s : List ℚ) (p : List ℕ) : Decidable (IsArgsortDesc s p) := by
  unfold IsArgsortDesc; infer_instance

/-- The ranking property the specification asserts: descending similarity
with ties broken by original scan order. -/
def StableDescOrder (s : List ℚ) (p : List ℕ) : Prop :=
  p.Pairwise (fun a b => s.getD b 0 < s.getD a 0 ∨ (s.getD a 0 = s.getD b 0 ∧ a < b))

instance (s : List ℚ) (p : List ℕ) : Decidable (StableDescOrder s p) := by
  unfold StableDescOrder; infer_instance

/-- `top_idx = np.argsort(-sims)[:k]`, with the argsort primitive `argsortp`
passed in (it models the composite `np.argsort(-sims)`, i.e. a descending
ranking of `sims`). -/
def fallbackTopIdx (argsortp : List ℚ → List ℕ) (sims : List ℚ) (k : ℕ) : List ℕ :=
  (argsortp sims).take k

/-- The similarities of the brute-force fallback: the cosine similarity of
every stored embedding against the query vector. -/
def simsOf (sq : ℚ → ℚ) (T : List Row) (qv : List ℚ) : List ℚ :=
  cosineSimilarityMatrix sq (T.map Row.embedding) qv

/-! ## Native search hits and context records (`RAGEngine.query`) -/

/-- A numeric cell value as pandas may hand it back: a native float or int,
or a numpy boxed float or int. -/
inductive NumVal where
  | f (q : ℚ)
  | i (z : ℤ)
  | npf (q : ℚ)
  | npi (z : ℤ)
deriving DecidableEq

/-- Python `float(v)` on a numeric value: unboxes and converts to a native
float. -/
def pyFloat : NumVal → ℚ
  | .f q => q
  | .npf q => q
  | .i z => (z : ℚ)
  | .npi z => (z : ℚ)

/-- Python `int(v)` on a numeric value: truncation toward zero for floats,
unboxing for ints. -/
def pyInt : NumVal → ℤ
  | .f q => q.num / (q.den : ℤ)
  | .npf q => q.num / (q.den : ℤ)
  | .i z => z
  | .npi z => z

/-- One row of the DataFrame returned by the native LanceDB search. The
`score` cell is `none` when the result has no `score` column (the per-row
check `"score" in row` in the source tests exactly column presence);
`bedrooms` and `bathrooms` are `none` when absent or `None`
(`row.get(..., None) is None`). -/
structure NativeHit where
  id : PyStr
  score : Option NumVal
  full_text : PyStr
  neighborhood : PyStr
  price : PyStr
  bedrooms : Option NumVal
  bathrooms : Option NumVal
deriving DecidableEq

/-- The context dict built from one native search hit (lines 70-78 of
`rag_pipeline.py`): every field passes through `str` / `float` / `int`, and
a missing score or a missing bedrooms/bathrooms value becomes `None`. -/
def mkNativeContext (h : NativeHit) : PyVal :=
  .pdict (PyVDict.ofPairs
    [ ("id".data, .str h.id),
      ("score".data, match h.score with
        | some v => .float (pyFloat v)
        | none => .pynone),
      ("full_text".data, .str h.full_text),
      ("neighborhood".data, .str h.neighborhood),
      ("price".data, .str h.price),
      ("bedrooms".data, match h.bedrooms with
        | some v => .int (pyInt v)
        | none => .pynone),
      ("bathrooms".data, match h.bathrooms with
        | some v => .int (pyInt v)
        | none => .pynone) ])

/-- The contexts of the native-search path: one context per row of the
(already limited) result DataFrame, in order. -/
def nativeCtxs (hits : List NativeHit) : List PyVal := hits.map mkNativeContext

/-- A default row, used only to give `List.getD` a value; under the argsort
contract every index is in range and this default is never selected. -/
def dRow : Row :=
  { id := [], neighborhood := [], price := [], bedrooms := 0, bathrooms := 0,
    house_size := [], description := [], neighborhood_description := [],
    full_text := [], embedding := [] }

/-- The context dict built from one brute-force fallback row (lines 92-100 of
`rag_pipeline.py`): the score is `float(sims[idx])`, a native float; the
table schema always provides `bedrooms`/`bathrooms` as floats, so `int(...)`
is applied. -/
def mkFallbackContext (r : Row) (s : ℚ) : PyVal :=
  .pdict (PyVDict.ofPairs
    [ ("id".data, .str r.id),
      ("score".data, .float s),
      ("full_text".data, .str r.full_text),
      ("neighborhood".data, .str r.neighborhood),
      ("price".data, .str r.price),
      ("bedrooms".data, .int (pyInt (.f r.bedrooms))),
      ("bathrooms".data, .int (pyInt (.f r.bathrooms))) ])

/-- The contexts of the brute-force fallback path, in ranking order. -/
def fallbackCtxs (sq : ℚ → ℚ) (argsortp : List ℚ → List ℕ)
    (T : List Row) (qv : List ℚ) (k : ℕ) : List PyVal :=
  (fallbackTopIdx argsortp (simsOf sq T qv) k).map
    (fun i => mkFallbackContext (T.getD i dRow) ((simsOf sq T qv).getD i 0))

/-! ## `search_with_lancedb` and the query orchestration -/

/-- `RealEstateDBManager.search_with_lancedb`: attempt
`table.search(qv).limit(k).to_pandas()`; the underlying LanceDB call is the
parameter `tableSearch` and the `limit(k)` contract of the store keeps at
most `k` rows. ANY exception is caught and turned into the explicit
unavailability value `None` (here `Option.none`); nothing is raised. -/
def searchWithLancedb (tableSearch : List ℚ → Except String (List NativeHit))
    (qv : List ℚ) (k : ℕ) : Option (List NativeHit) :=
  match tableSearch qv with
  | .ok rows => some (rows.take k)
  | .error _ => none

/-- The `{"query": ..., "top_k": ...}` payload: returned directly on an empty
table, and by `_generate_answer` when no OpenAI key is configured. -/
def rawPayload (uq : PyStr) (ctxs : List PyVal) : PyVal :=
  .pdict (PyVDict.ofPairs [("query".data, .str uq), ("top_k".data, .plist (.ofList ctxs))])

/-- Fixed-precision rendering `f"{q:.4f}"` of a float. Python rounds
half-to-even; this model rounds half away from even in rare midpoint cases,
which is not load-bearing (only definedness on numeric values matters). -/
def fmt4 (q : ℚ) : PyStr :=
  let scaled : ℤ := round (q * 10000)
  let a := scaled.natAbs
  let whole := (toString (a / 10000)).data
  let fracDigits := (toString (a % 10000)).data
  let frac := List.replicate (4 - fracDigits.length) '0' ++ fracDigits
  (if scaled < 0 then ['-'] else []) ++ whole ++ ['.'] ++ frac

/-- The f-string `f"Listing ID {c['id']} (score={c['score']:.4f}): {c['full_text']}"`
applied to one (already sanitized) context dict. Formatting a non-numeric
score with `:.4f` raises (in particular a `None` score raises `TypeError`),
as does a missing key. -/
def formatContext (c : PyVal) : Except String PyStr :=
  match dictGet c "id".data, dictGet c "score".data, dictGet c "full_text".data with
  | some (.str i), some sv, some (.str ft) =>
    (match sv with
     | .float q => .ok ("Listing ID ".data ++ i ++ " (score=".data ++ fmt4 q ++ "): ".data ++ ft)
     | .int z => .ok ("Listing ID ".data ++ i ++ " (score=".data ++ fmt4 (z : ℚ) ++ "): ".data ++ ft)
     | .npFloat q => .ok ("Listing ID ".data ++ i ++ " (score=".data ++ fmt4 q ++ "): ".data ++ ft)
     | .npInt z => .ok ("Listing ID ".data ++ i ++ " (score=".data ++ fmt4 (z : ℚ) ++ "): ".data ++ ft)
     | _ => .error "TypeError: unsupported format string passed to the score")
  | _, _, _ => .error "KeyError"

/-- The `context_texts` loop of `_generate_answer`. -/
def formatContexts : List PyVal → Except String (List PyStr)
  | [] => .ok []
  | c :: t =>
    match formatContext c with
    | .error e => .error e
    | .ok s =>
      match formatContexts t with
      | .error e => .error e
      | .ok ts => .ok (s :: ts)

/-- The fixed system prompt of `_generate_answer`. -/
def systemPromptText : PyStr :=
  ("You are an assistant that recommends real estate listings based on a user\x27s natural-language requirements. " ++
   "Given the query and the retrieved candidate listings below, produce a short ranked recommendation with reasoning and actionable next steps.").data

/-- The user prompt of `_generate_answer`, embedding the query and the
formatted contexts. -/
def userPromptText (uq : PyStr) (ts : List PyStr) : PyStr :=
  "User query: ".data ++ uq ++ "\n\n".data ++
  "Retrieved candidate listings (top results):\n".data ++
  pyJoin "\n\n".data ts ++
  "\n\nTask: Recommend the top 3 listings, explain why each matches the user's intent, and list missing info or next steps.".data

/-- `RAGEngine._generate_answer`: always sanitize the contexts first; if no
OpenAI key is configured return the raw `{"query", "top_k"}` payload without
touching the generation capability; otherwise format the contexts, call the
chat completion (`generate`), and return `{"answer", "retrieved"}`. The
source wraps neither the formatting nor the completion call in a handler, so
any failure there propagates to the caller. -/
def generateAnswer (generate : PyStr → PyStr → Except String PyStr)
    (apiKey : Bool) (uq : PyStr) (ctxs0 : List PyVal) : Except String PyVal :=
  let ctxs := ctxs0.map PyVal.toJsonSafe
  if apiKey = false then
    .ok (rawPayload uq ctxs)
  else
    match formatContexts ctxs with
    | .error e => .error e
    | .ok ts =>
      match generate systemPromptText (userPromptText uq ts) with
      | .error e => .error e
      | .ok ans =>
        .ok (PyVal.toJsonSafe (.pdict (PyVDict.ofPairs
          [("answer".data, .str ans), ("retrieved".data, .plist (.ofList ctxs))])))

/-- The brute-force fallback block of `RAGEngine.query` (lines 81-102): an
empty table returns `{"query": ..., "top_k": []}` immediately; otherwise the
cosine similarities are ranked, the first `k` indices selected, the contexts
built and handed to `_generate_answer`. -/
def fallbackQuery (sq : ℚ → ℚ) (argsortp : List ℚ → List ℕ)
    (generate : PyStr → PyStr → Except String PyStr) (apiKey : Bool)
    (T : List Row) (uq : PyStr) (k : ℕ) (qv : List ℚ) : Except String PyVal :=
  if T.isEmpty then
    .ok (rawPayload uq [])
  else
    generateAnswer generate apiKey uq (fallbackCtxs sq argsortp T qv k)

/-- `RAGEngine.query(user_query, k)`: embed the query (failure propagates),
try the native search; a non-`None`, non-empty result takes the native path,
anything else falls back to the in-memory brute-force scan over the table
rows `T`. -/
def query (sq : ℚ → ℚ) (argsortp : List ℚ → List ℕ)
    (tableSearch : List ℚ → Except String (List NativeHit))
    (generate : PyStr → PyStr → Except String PyStr) (apiKey : Bool)
    (embedQ : PyStr → Except String (List ℚ))
    (T : List Row) (uq : PyStr) (k : ℕ) : Except String PyVal :=
  match embedQ uq with
  | .error e => .error e
  | .ok qv =>
    match searchWithLancedb tableSearch qv k with
    | some hits =>
      if hits.isEmpty then
        fallbackQuery sq argsortp generate apiKey T uq k qv
      else
        generateAnswer generate apiKey uq (nativeCtxs hits)
    | none => fallbackQuery sq argsortp generate apiKey T uq k qv

/-- Derived characterization (not source code): the context list that the
no-generation payload of `query` carries, used to state the retrieval-bound
claims uniformly across the native and fallback paths. -/
def retrieveCtxs (sq : ℚ → ℚ) (argsortp : List ℚ → List ℕ)
    (tableSearch : List ℚ → Except String (List NativeHit))
    (T : List Row) (qv : List ℚ) (k : ℕ) : List PyVal :=
  match searchWithLancedb tableSearch qv k with
  | some hits =>
    if hits.isEmpty then
      (if T.isEmpty then [] else (fallbackCtxs sq argsortp T qv k).map PyVal.toJsonSafe)
    else (nativeCtxs hits).map PyVal.toJsonSafe
  | none =>
    if T.isEmpty then [] else (fallbackCtxs sq argsortp T qv k).map PyVal.toJsonSafe

/-- The context records of a result payload: the value of `top_k` (raw
payload) or of `retrieved` (answer payload). -/
def payloadContexts (p : PyVal) : List PyVal :=
  match dictGet p "top_k".data with
  | some (.plist l) => l.toList
  | _ =>
    match dictGet p "retrieved".data with
    | some (.plist l) => l.toList
    | _ => []

/-! ## Helper lemmas -/

mutual
theorem noBoxed_toJsonSafe_val : ∀ v : PyVal, (PyVal.toJsonSafe v).noBoxed = true
  | .str _ => rfl
  | .float _ => rfl
  | .int _ => rfl
  | .pynone => rfl
  | .npFloat _ => rfl
  | .npInt _ => rfl
  | .plist l => noBoxed_toJsonSafe_vlist l
  | .pdict d => noBoxed_toJsonSafe_vdict d
theorem noBoxed_toJsonSafe_vlist : ∀ l : PyVList, (PyVList.toJsonSafe l).noBoxed = true
  | .nil => rfl
  | .cons v t => by
    simp only [PyVList.toJsonSafe, PyVList.noBoxed, Bool.and_eq_true]
    exact ⟨noBoxed_toJsonSafe_val v, noBoxed_toJsonSafe_vlist t⟩
theorem noBoxed_toJsonSafe_vdict : ∀ d : PyVDict, (PyVDict.toJsonSafe d).noBoxed = true
  | .nil => rfl
  | .cons k v t => by
    simp only [PyVDict.toJsonSafe, PyVDict.noBoxed, Bool.and_eq_true]
    exact ⟨noBoxed_toJsonSafe_val v, noBoxed_toJsonSafe_vdict t⟩
end

theorem toList_ofList (l : List PyVal) : (PyVList.ofList l).toList = l := by
  induction l with
  | nil => rfl
  | cons v t ih => simp [PyVList.ofList, PyVList.toList, ih]

theorem toJsonSafe_ofList (l : List PyVal) :
    (PyVList.ofList l).toJsonSafe = PyVList.ofList (l.map PyVal.toJsonSafe) := by
  induction l with
  | nil => rfl
  | cons v t ih => simp [PyVList.ofList, PyVList.toJsonSafe, ih]

theorem pyStrip_ne_nil {s : PyStr} (h : ∃ c ∈ s, isPySpace c = false) :
    pyStrip s ≠ [] := by
  obtain ⟨c, hc, hcs⟩ := h
  intro hstrip
  unfold pyStrip at hstrip
  rw [List.reverse_eq_nil_iff] at hstrip
  have hall : ∀ x ∈ (s.dropWhile isPySpace).reverse, isPySpace x = true :=
    List.dropWhile_eq_nil_iff.mp hstrip
  have hcd : c ∈ s.dropWhile isPySpace := by
    have hsplit := List.takeWhile_append_dropWhile (p := isPySpace) (l := s)
    rw [← hsplit] at hc
    rcases List.mem_append.mp hc with h1 | h2
    · exact absurd (List.mem_takeWhile_imp h1) (by simp [hcs])
    · exact h2
  have := hall c (List.mem_reverse.mpr hcd)
  simp [hcs] at this

theorem pyJoin_cons_eq (sep : PyStr) (a : PyStr) (t : List PyStr) :
    ∃ rest, pyJoin sep (a :: t) = a ++ rest := by
  cases t with
  | nil => exact ⟨[], by simp [pyJoin, List.intercalate, List.intersperse]⟩
  | cons b t2 =>
    exact ⟨sep ++ pyJoin sep (b :: t2), by
      simp [pyJoin, List.intercalate, List.intersperse, List.flatten]⟩

theorem argsort_mem_all {s : List ℚ} {p : List ℕ} (h : IsArgsortDesc s p) :
    ∀ j, j < s.length → j ∈ p := by
  obtain ⟨hnd, hlen, hmem, _⟩ := h
  intro j hj
  have hsub : p.toFinset ⊆ Finset.range s.length := by
    intro x hx
    simp only [List.mem_toFinset] at hx
    exact Finset.mem_range.mpr (hmem x hx)
  have hcard : (Finset.range s.length).card ≤ p.toFinset.card := by
    rw [Finset.card_range, List.toFinset_card_of_nodup hnd, hlen]
  have heq : p.toFinset = Finset.range s.length :=
    Finset.eq_of_subset_of_card_le hsub hcard
  have hjm : j ∈ p.toFinset := heq ▸ Finset.mem_range.mpr hj
  exact List.mem_toFinset.mp hjm

theorem topIdx_length {s : List ℚ} {p : List ℕ} (k : ℕ) (h : IsArgsortDesc s p) :
    (p.take k).length = min k s.length := by
  rw [List.length_take, h.2.1]

theorem topIdx_sorted {s : List ℚ} {p : List ℕ} (k : ℕ) (h : IsArgsortDesc s p) :
    (p.take k).Pairwise (fun a b => s.getD b 0 ≤ s.getD a 0) :=
  List.Pairwise.sublist (List.take_sublist k p) h.2.2.2

theorem topIdx_optimal {s : List ℚ} {p : List ℕ} (k : ℕ) (h : IsArgsortDesc s p) :
    ∀ i ∈ p.take k, ∀ j, j < s.length → j ∉ p.take k → s.getD j 0 ≤ s.getD i 0 := by
  intro i hi j hj hjn
  have hjp : j ∈ p := argsort_mem_all h j hj
  rw [← List.take_append_drop k p] at hjp
  have hjd : j ∈ p.drop k := by
    rcases List.mem_append.mp hjp with h1 | h2
    · exact absurd h1 hjn
    · exact h2
  have hpw : (p.take k ++ p.drop k).Pairwise (fun a b => s.getD b 0 ≤ s.getD a 0) := by
    rw [List.take_append_drop]
    exact h.2.2.2
  exact (List.pairwise_append.mp hpw).2.2 i hi j hjd

/-- The listing id a raw record produces in one run. -/
def recId (hash : PyStr → PyStr) (r : Raw) : PyStr :=
  computeListingId hash (makeFullText r)

theorem ingestAux_ok_ids (hash : PyStr → PyStr) (em : PyStr → Except String EmbRet)
    (snap : List PyStr) :
    ∀ (L : List Raw) (docs res : List Row),
      ingestAux hash em snap L docs = .ok res →
      res.map Row.id
        = docs.map Row.id ++ (L.map (recId hash)).filter (fun i => !decide (i ∈ snap)) := by
  intro L
  induction L with
  | nil =>
    intro docs res h
    simp only [ingestAux] at h
    cases h
    simp
  | cons raw rest ih =>
    intro docs res h
    simp only [ingestAux] at h
    by_cases hm : computeListingId hash (makeFullText raw) ∈ snap
    · rw [if_pos hm] at h
      have := ih docs res h
      simp [recId, hm, this]
    · rw [if_neg hm] at h
      cases hembed : em (makeFullText raw) with
      | error e => rw [hembed] at h; cases h
      | ok r =>
        cases r with
        | notList => rw [hembed] at h; cases h
        | vec v =>
          rw [hembed] at h
          have := ih (docs ++ [mkRow (computeListingId hash (makeFullText raw)) raw (makeFullText raw) v]) res h
          simp [recId, hm, this, mkRow]

theorem ingestAux_skips_all (hash : PyStr → PyStr) (em : PyStr → Except String EmbRet)
    (snap : List PyStr) :
    ∀ (L : List Raw) (docs : List Row),
      (∀ r ∈ L, recId hash r ∈ snap) → ingestAux hash em snap L docs = .ok docs := by
  intro L
  induction L with
  | nil => intro docs _; rfl
  | cons raw rest ih =>
    intro docs hall
    have hm : computeListingId hash (makeFullText raw) ∈ snap :=
      hall raw (List.mem_cons_self raw rest)
    simp only [ingestAux]
    rw [if_pos hm]
    exact ih docs (fun r hr => hall r (List.mem_cons_of_mem raw hr))

theorem ingestAux_embed_error (hash : PyStr → PyStr) (em : PyStr → Except String EmbRet)
    (snap : List PyStr) :
    ∀ (L : List Raw) (docs : List Row) (r : Raw) (e : String),
      r ∈ L → recId hash r ∉ snap → em (makeFullText r) = .error e →
      ∃ e2, ingestAux hash em snap L docs = .error e2 := by
  intro L
  induction L with
  | nil => intro docs r e hmem; cases hmem
  | cons raw rest ih =>
    intro docs r e hmem hns herr
    rcases List.mem_cons.mp hmem with heq | htail
    · subst heq
      simp only [ingestAux]
      simp only [recId] at hns
      rw [if_neg hns, herr]
      exact ⟨e, rfl⟩
    · by_cases hm : computeListingId hash (makeFullText raw) ∈ snap
      · simp only [ingestAux]
        rw [if_pos hm]
        exact ih docs r e htail hns herr
      · simp only [ingestAux]
        rw [if_neg hm]
        cases hembed : em (makeFullText raw) with
        | error e3 => exact ⟨e3, rfl⟩
        | ok rr =>
          cases rr with
          | notList => exact ⟨"embed_fn must return a list of floats", rfl⟩
          | vec v =>
            exact ih (docs ++ [mkRow (computeListingId hash (makeFullText raw)) raw (makeFullText raw) v]) r e htail hns herr

/-! ## Concrete instances used by witnesses and counterexamples -/

/-- A raw record with every field absent. -/
def rawC : Raw := ⟨none, none, none, none, none, none, none⟩

/-- A concrete stand-in for the md5 hex digest (any function settles the
claims below; identity keeps witnesses computable). -/
def hashC : PyStr → PyStr := fun s => s

/-- An embedding stub returning a fixed singleton vector. -/
def emC : PyStr → Except String EmbRet := fun _ => .ok (.vec [1])

/-- An embedding stub that raises. -/
def emErrC : PyStr → Except String EmbRet := fun _ => .error "embedding provider unavailable"

/-- An embedding stub returning a length-2 vector. -/
def emShortC : PyStr → Except String EmbRet := fun _ => .ok (.vec [1, 2])

/-- A pre-existing stored row whose embedding has length 3, fixing the
table dimension of the counterexample table at D = 3. -/
def rowD3 : Row :=
  { id := "seed".data, neighborhood := [], price := [], bedrooms := 0, bathrooms := 0,
    house_size := [], description := [], neighborhood_description := [],
    full_text := "seedtext".data, embedding := [1, 2, 3] }

/-! ## C1 -/

/-- C1, counterexample: ingesting the same raw record twice IN ONE RUN
stores two rows with the same listing id, because `ingest_listings` never
adds freshly produced ids to the `existing_ids` snapshot inside its loop.
The claim asserts exactly one stored row would result. -/
theorem c1_within_run_duplicate_counterexample :
    ((tableAfter hashC emC [] [rawC, rawC]).map Row.id).count (recId hashC rawC) = 2 := by
  decide

/-- C1 (amended): ingestion deduplicates only against the snapshot of stored
ids taken at the start of the run: on a successful run the stored ids are the
old ids followed by the ids of exactly those records (in order, duplicates
included) whose id is not in the snapshot; re-running the same input against
the resulting table inserts nothing, so ingestion is idempotent across runs,
but duplicates within a single run are each written. -/
theorem c1_ingest_dedup_amended (hash : PyStr → PyStr)
    (em : PyStr → Except String EmbRet) (T T' : List Row) (L : List Raw)
    (h : ingestListings hash em T L = .ok T') :
    T'.map Row.id
      = T.map Row.id ++ (L.map (recId hash)).filter (fun i => !decide (i ∈ existingIds T))
    ∧ ingestListings hash em T' L = .ok T' := by
  unfold ingestListings at h
  cases haux : ingestAux hash em (existingIds T) L [] with
  | error e => rw [haux] at h; cases h
  | ok docs =>
    rw [haux] at h
    cases h
    have hids := ingestAux_ok_ids hash em (existingIds T) L [] docs haux
    simp only [List.map_nil, List.nil_append] at hids
    constructor
    · rw [List.map_append, hids]
    · have hsubset : ∀ r ∈ L, recId hash r ∈ existingIds (T ++ docs) := by
        intro r hr
        unfold existingIds
        rw [List.map_append]
        by_cases hmem : recId hash r ∈ existingIds T
        · exact List.mem_append_left _ hmem
        · apply List.mem_append_right
          rw [hids]
          exact List.mem_filter.mpr ⟨List.mem_map_of_mem (recId hash) hr, by simp [hmem]⟩
      unfold ingestListings
      rw [ingestAux_skips_all hash em (existingIds (T ++ docs)) L [] hsubset]
      simp

/-- C1 witness: a concrete successful run on an empty table. -/
theorem c1_ingest_dedup_witness :
    ingestListings hashC emC [] [rawC]
      = .ok [mkRow (recId hashC rawC) rawC (makeFullText rawC) [1]]
    ∧ ([mkRow (recId hashC rawC) rawC (makeFullText rawC) [1]].map Row.id
        = ([] : List Row).map Row.id
          ++ ([rawC].map (recId hashC)).filter (fun i => !decide (i ∈ existingIds ([] : List Row)))
       ∧ ingestListings hashC emC [mkRow (recId hashC rawC) rawC (makeFullText rawC) [1]] [rawC]
          = .ok [mkRow (recId hashC rawC) rawC (makeFullText rawC) [1]]) := by
  have h : ingestListings hashC emC [] [rawC]
      = .ok [mkRow (recId hashC rawC) rawC (makeFullText rawC) [1]] := by rfl
  exact ⟨h, c1_ingest_dedup_amended hashC emC [] _ [rawC] h⟩

/-! ## C5 -/

/-- C5, counterexample: no dimension check exists in `ingest_listings`. With
a table whose stored embedding has length 3, an embed function returning a
length-2 vector is accepted: the run succeeds and the offending record
appears in the subsequent full scan. The claim asserts the run would abort
and the record would be absent. -/
theorem c5_dimension_unchecked_counterexample :
    ingestListings hashC emShortC [rowD3] [rawC]
      = .ok [rowD3, mkRow (recId hashC rawC) rawC (makeFullText rawC) [1, 2]]
    ∧ (tableAfter hashC emShortC [rowD3] [rawC]).map (fun r => r.embedding)
        = [[1, 2, 3], [(1 : ℚ), 2]]
    ∧ recId hashC rawC ∈ (tableAfter hashC emShortC [rowD3] [rawC]).map Row.id := by
  refine ⟨by rfl, by rfl, by decide⟩

/-- C5 (amended): if the embed function raises on a record that is not
skipped by the snapshot dedup, the whole ingestion run aborts with a
propagated error and nothing is written, so the offending record does not
appear in a subsequent full scan. (The dimension half of the original claim
is dropped: the source checks only that the return value is a list or tuple
and performs no length check, as the counterexample shows.) -/
theorem c5_embed_error_aborts (hash : PyStr → PyStr)
    (em : PyStr → Except String EmbRet) (T : List Row) (L : List Raw)
    (r : Raw) (e : String)
    (hmem : r ∈ L) (hns : recId hash r ∉ existingIds T)
    (herr : em (makeFullText r) = .error e) :
    (∃ e2, ingestListings hash em T L = .error e2)
    ∧ recId hash r ∉ (tableAfter hash em T L).map Row.id := by
  obtain ⟨e2, haux⟩ := ingestAux_embed_error hash em (existingIds T) L [] r e hmem hns herr
  have hing : ingestListings hash em T L = .error e2 := by
    unfold ingestListings
    rw [haux]
  refine ⟨⟨e2, hing⟩, ?_⟩
  unfold tableAfter
  rw [hing]
  exact hns

/-- C5 witness: a concrete run in which the embedding provider raises. -/
theorem c5_embed_error_witness :
    rawC ∈ [rawC]
    ∧ recId hashC rawC ∉ existingIds ([] : List Row)
    ∧ emErrC (makeFullText rawC) = .error "embedding provider unavailable"
    ∧ ((∃ e2, ingestListings hashC emErrC [] [rawC] = .error e2)
       ∧ recId hashC rawC ∉ (tableAfter hashC emErrC [] [rawC]).map Row.id) :=
  ⟨List.mem_singleton.mpr rfl, by simp [existingIds], rfl,
    c5_embed_error_aborts hashC emErrC [] [rawC] rawC "embedding provider unavailable"
      (List.mem_singleton.mpr rfl) (by simp [existingIds]) rfl⟩

/-! ## Query-level constants and lemmas -/

/-- A concrete stand-in for the float square root (its value is irrelevant to
the ranking claims, which hold for every square-root function). -/
def sqrtOneC : ℚ → ℚ := fun _ => 1

/-- The similarities of two identical stored embeddings against a query:
a concrete tie. -/
def simsTieC : List ℚ := cosineSimilarityMatrix sqrtOneC [[1], [1]] [1]

/-- A stored row with embedding `[1]`. -/
def rowA : Row := { dRow with id := "a".data, full_text := "ta".data, embedding := [1] }

/-- A stored row with embedding `[0]`. -/
def rowB : Row := { dRow with id := "b".data, full_text := "tb".data, embedding := [0] }

/-- A concrete two-row table. -/
def TC : List Row := [rowA, rowB]

/-- A concrete query vector. -/
def qvC : List ℚ := [1]

/-- A concrete user query string. -/
def uqC : PyStr := "three bedrooms near transit".data

/-- A concrete descending ranking primitive for the two-row table. -/
def argsortAB : List ℚ → List ℕ := fun _ => [0, 1]

/-- A query embedder stub. -/
def embedQC : PyStr → Except String (List ℚ) := fun _ => .ok qvC

/-- A native search that always fails (no index / unsupported). -/
def tableSearchErrC : List ℚ → Except String (List NativeHit) := fun _ => .error "no native index"

/-- A native hit carrying a score. -/
def hitA : NativeHit :=
  { id := "h1".data, score := some (.f 1), full_text := "ft1".data,
    neighborhood := "n1".data, price := "p1".data,
    bedrooms := some (.f 3), bathrooms := some (.f 2) }

/-- A native hit from a result with no `score` column. -/
def hitN : NativeHit := { hitA with id := "h2".data, score := none }

/-- A native search returning one scored hit. -/
def tableSearchOkC : List ℚ → Except String (List NativeHit) := fun _ => .ok [hitA]

/-- A native search returning one hit without a score column. -/
def tableSearchNoScoreC : List ℚ → Except String (List NativeHit) := fun _ => .ok [hitN]

/-- A generation stub that succeeds. -/
def genOkC : PyStr → PyStr → Except String PyStr := fun _ _ => .ok "recommendation".data

/-- A generation stub that raises. -/
def genFailC : PyStr → PyStr → Except String PyStr := fun _ _ => .error "boom"

theorem simsOf_length (sq : ℚ → ℚ) (T : List Row) (qv : List ℚ) :
    (simsOf sq T qv).length = T.length := by
  simp [simsOf, cosineSimilarityMatrix]

theorem query_unfold (sq : ℚ → ℚ) (argsortp : List ℚ → List ℕ)
    (tableSearch : List ℚ → Except String (List NativeHit))
    (generate : PyStr → PyStr → Except String PyStr) (apiKey : Bool)
    (embedQ : PyStr → Except String (List ℚ)) (T : List Row) (uq : PyStr) (k : ℕ)
    (qv : List ℚ) (hembed : embedQ uq = .ok qv) :
    query sq argsortp tableSearch generate apiKey embedQ T uq k
      = match searchWithLancedb tableSearch qv k with
        | some hits =>
          if hits.isEmpty then fallbackQuery sq argsortp generate apiKey T uq k qv
          else generateAnswer generate apiKey uq (nativeCtxs hits)
        | none => fallbackQuery sq argsortp generate apiKey T uq k qv := by
  unfold query
  rw [hembed]

theorem generateAnswer_noKey (generate : PyStr → PyStr → Except String PyStr)
    (uq : PyStr) (ctxs0 : List PyVal) :
    generateAnswer generate false uq ctxs0
      = .ok (rawPayload uq (ctxs0.map PyVal.toJsonSafe)) := rfl

theorem fallbackCtxs_nil (sq : ℚ → ℚ) (argsortp : List ℚ → List ℕ)
    (qv : List ℚ) (k : ℕ)
    (hsort : IsArgsortDesc (simsOf sq ([] : List Row) qv)
      (argsortp (simsOf sq ([] : List Row) qv))) :
    fallbackCtxs sq argsortp [] qv k = [] := by
  have hp : argsortp (simsOf sq ([] : List Row) qv) = [] := by
    have hlen := hsort.2.1
    rw [simsOf_length] at hlen
    exact List.length_eq_zero.mp hlen
  unfold fallbackCtxs fallbackTopIdx
  rw [hp]
  simp

theorem fallbackQuery_noKey_eq (sq : ℚ → ℚ) (argsortp : List ℚ → List ℕ)
    (generate : PyStr → PyStr → Except String PyStr) (T : List Row)
    (uq : PyStr) (k : ℕ) (qv : List ℚ)
    (hsort : IsArgsortDesc (simsOf sq T qv) (argsortp (simsOf sq T qv))) :
    fallbackQuery sq argsortp generate false T uq k qv
      = .ok (rawPayload uq ((fallbackCtxs sq argsortp T qv k).map PyVal.toJsonSafe)) := by
  by_cases hT : T.isEmpty = true
  · have hTnil : T = [] := List.isEmpty_iff.mp hT
    subst hTnil
    rw [fallbackCtxs_nil sq argsortp qv k hsort]
    rfl
  · unfold fallbackQuery
    rw [if_neg hT]
    exact generateAnswer_noKey generate uq _

/-! ## C2 -/

/-- C2, counterexample: on two rows with identical embeddings the cosine
similarities tie; the index list `[1, 0]` satisfies everything numpy
guarantees for `np.argsort(-sims)` with its default kind (a permutation
sorting the similarities in descending order; the default quicksort kind is
documented as not stable), yet it violates the claimed scan-order tie
breaking. The stable tie order asserted by the claim is therefore not a
property of the code. -/
theorem c2_stable_tie_counterexample :
    IsArgsortDesc simsTieC [1, 0] ∧ ¬ StableDescOrder simsTieC [1, 0] := by
  have heq : simsTieC.getD 0 0 = simsTieC.getD 1 0 := rfl
  constructor
  · refine ⟨by decide, rfl, ?_, ?_⟩
    · intro i hi
      simp only [List.mem_cons, List.not_mem_nil, or_false] at hi
      rcases hi with rfl | rfl <;> exact by norm_num [simsTieC, cosineSimilarityMatrix]
    · refine List.Pairwise.cons ?_ (List.pairwise_singleton _ _)
      intro b hb
      simp only [List.mem_singleton] at hb
      subst hb
      exact le_of_eq heq
  · intro h
    have hr := (List.pairwise_cons.mp h).1 0 (List.mem_singleton.mpr rfl)
    rcases hr with hlt | ⟨_, h10⟩
    · exact absurd (heq ▸ hlt) (lt_irrefl _)
    · exact absurd h10 (by decide)

/-- C2 (amended): the brute-force fallback ranking is ordered by cosine
similarity in descending order and returns the first `k` entries of a
permutation of all row indices (so `min k n` results, each dominating every
unselected row); the order among rows with EQUAL similarity is
implementation-defined (numpy default argsort, not guaranteed stable) rather
than scan order. -/
theorem c2_fallback_ranking_amended (sq : ℚ → ℚ) (argsortp : List ℚ → List ℕ)
    (T : List Row) (qv : List ℚ) (k : ℕ)
    (hsort : IsArgsortDesc (simsOf sq T qv) (argsortp (simsOf sq T qv))) :
    (fallbackTopIdx argsortp (simsOf sq T qv) k).length = min k T.length
    ∧ (fallbackTopIdx argsortp (simsOf sq T qv) k).Pairwise
        (fun a b => (simsOf sq T qv).getD b 0 ≤ (simsOf sq T qv).getD a 0)
    ∧ ∀ i ∈ fallbackTopIdx argsortp (simsOf sq T qv) k,
        ∀ j, j < T.length → j ∉ fallbackTopIdx argsortp (simsOf sq T qv) k →
          (simsOf sq T qv).getD j 0 ≤ (simsOf sq T qv).getD i 0 := by
  refine ⟨?_, topIdx_sorted k hsort, ?_⟩
  · unfold fallbackTopIdx
    rw [topIdx_length k hsort, simsOf_length]
  · intro i hi j hj hjn
    exact topIdx_optimal k hsort i hi j (by rw [simsOf_length]; exact hj) hjn

theorem argsortAB_valid :
    IsArgsortDesc (simsOf sqrtOneC TC qvC) (argsortAB (simsOf sqrtOneC TC qvC)) := by
  show IsArgsortDesc (simsOf sqrtOneC TC qvC) [0, 1]
  have h0 : (simsOf sqrtOneC TC qvC).getD 1 0 ≤ (simsOf sqrtOneC TC qvC).getD 0 0 := by
    norm_num [simsOf, TC, rowA, rowB, dRow, qvC, cosineSimilarityMatrix, vecNorm, dotQ,
      npEps, sqrtOneC, List.getD]
  refine ⟨by decide, by rw [simsOf_length]; rfl, ?_, ?_⟩
  · intro i hi
    rw [simsOf_length]
    simp only [List.mem_cons, List.not_mem_nil, or_false] at hi
    rcases hi with rfl | rfl <;> norm_num [TC]
  · refine List.Pairwise.cons ?_ (List.pairwise_singleton _ _)
    intro b hb
    simp only [List.mem_singleton] at hb
    subst hb
    exact h0

/-- C2 witness: the amended ranking property at a concrete two-row table. -/
theorem c2_fallback_ranking_witness :
    IsArgsortDesc (simsOf sqrtOneC TC qvC) (argsortAB (simsOf sqrtOneC TC qvC))
    ∧ ((fallbackTopIdx argsortAB (simsOf sqrtOneC TC qvC) 1).length = min 1 TC.length
       ∧ (fallbackTopIdx argsortAB (simsOf sqrtOneC TC qvC) 1).Pairwise
           (fun a b => (simsOf sqrtOneC TC qvC).getD b 0 ≤ (simsOf sqrtOneC TC qvC).getD a 0)
       ∧ ∀ i ∈ fallbackTopIdx argsortAB (simsOf sqrtOneC TC qvC) 1,
           ∀ j, j < TC.length → j ∉ fallbackTopIdx argsortAB (simsOf sqrtOneC TC qvC) 1 →
             (simsOf sqrtOneC TC qvC).getD j 0 ≤ (simsOf sqrtOneC TC qvC).getD i 0) :=
  ⟨argsortAB_valid, c2_fallback_ranking_amended sqrtOneC argsortAB TC qvC 1 argsortAB_valid⟩

theorem query_noKey_eq (sq : ℚ → ℚ) (argsortp : List ℚ → List ℕ)
    (tableSearch : List ℚ → Except String (List NativeHit))
    (generate : PyStr → PyStr → Except String PyStr)
    (embedQ : PyStr → Except String (List ℚ)) (T : List Row) (uq : PyStr) (k : ℕ)
    (qv : List ℚ) (hembed : embedQ uq = .ok qv) :
    query sq argsortp tableSearch generate false embedQ T uq k
      = .ok (rawPayload uq (retrieveCtxs sq argsortp tableSearch T qv k)) := by
  rw [query_unfold sq argsortp tableSearch generate false embedQ T uq k qv hembed]
  unfold retrieveCtxs
  cases hs : searchWithLancedb tableSearch qv k with
  | none =>
    by_cases hT : T.isEmpty = true
    · unfold fallbackQuery
      rw [if_pos hT, if_pos hT]
    · unfold fallbackQuery
      rw [if_neg hT, if_neg hT]
      exact generateAnswer_noKey generate uq _
  | some hits =>
    dsimp only
    by_cases he : hits.isEmpty = true
    · rw [if_pos he, if_pos he]
      by_cases hT : T.isEmpty = true
      · unfold fallbackQuery
        rw [if_pos hT, if_pos hT]
      · unfold fallbackQuery
        rw [if_neg hT, if_neg hT]
        exact generateAnswer_noKey generate uq _
    · rw [if_neg he, if_neg he]
      exact generateAnswer_noKey generate uq _

theorem retrieveCtxs_length_le (sq : ℚ → ℚ) (argsortp : List ℚ → List ℕ)
    (tableSearch : List ℚ → Except String (List NativeHit))
    (T : List Row) (qv : List ℚ) (k : ℕ) :
    (retrieveCtxs sq argsortp tableSearch T qv k).length ≤ k := by
  have hfb : ((if T.isEmpty then [] else
      (fallbackCtxs sq argsortp T qv k).map PyVal.toJsonSafe) : List PyVal).length ≤ k := by
    by_cases hT : T.isEmpty = true
    · rw [if_pos hT]
      simp
    · rw [if_neg hT, List.length_map]
      unfold fallbackCtxs
      rw [List.length_map]
      unfold fallbackTopIdx
      exact List.length_take_le _ _
  unfold retrieveCtxs
  cases hs : searchWithLancedb tableSearch qv k with
  | none => exact hfb
  | some hits =>
    dsimp only
    by_cases he : hits.isEmpty = true
    · rw [if_pos he]
      exact hfb
    · rw [if_neg he, List.length_map]
      unfold searchWithLancedb at hs
      cases hrows : tableSearch qv with
      | error e => rw [hrows] at hs; cases hs
      | ok rows =>
        rw [hrows] at hs
        injection hs with hs2
        subst hs2
        unfold nativeCtxs
        rw [List.length_map]
        exact List.length_take_le _ _

/-! ## C3 -/

/-- C3: any exception from the underlying LanceDB search (no index, call
unsupported) is absorbed by `search_with_lancedb` into the explicit
unavailability value `None` rather than being raised; `query` then takes the
brute-force fallback over a full scan, and the resulting payload carries the
exact top-k: `min k n` contexts, ranked by cosine similarity in descending
order, each selected index dominating every unselected row. -/
theorem c3_native_unavailable_fallback (sq : ℚ → ℚ) (argsortp : List ℚ → List ℕ)
    (tableSearch : List ℚ → Except String (List NativeHit))
    (generate : PyStr → PyStr → Except String PyStr)
    (embedQ : PyStr → Except String (List ℚ)) (T : List Row) (uq : PyStr)
    (k : ℕ) (qv : List ℚ) (e : String)
    (hembed : embedQ uq = .ok qv)
    (hsearch : tableSearch qv = .error e)
    (hsort : IsArgsortDesc (simsOf sq T qv) (argsortp (simsOf sq T qv))) :
    searchWithLancedb tableSearch qv k = none
    ∧ query sq argsortp tableSearch generate false embedQ T uq k
        = .ok (rawPayload uq ((fallbackCtxs sq argsortp T qv k).map PyVal.toJsonSafe))
    ∧ (fallbackTopIdx argsortp (simsOf sq T qv) k).length = min k T.length
    ∧ (fallbackTopIdx argsortp (simsOf sq T qv) k).Pairwise
        (fun a b => (simsOf sq T qv).getD b 0 ≤ (simsOf sq T qv).getD a 0)
    ∧ ∀ i ∈ fallbackTopIdx argsortp (simsOf sq T qv) k,
        ∀ j, j < T.length → j ∉ fallbackTopIdx argsortp (simsOf sq T qv) k →
          (simsOf sq T qv).getD j 0 ≤ (simsOf sq T qv).getD i 0 := by
  have hnone : searchWithLancedb tableSearch qv k = none := by
    unfold searchWithLancedb
    rw [hsearch]
  refine ⟨hnone, ?_, ?_, topIdx_sorted k hsort, ?_⟩
  · rw [query_unfold sq argsortp tableSearch generate false embedQ T uq k qv hembed, hnone]
    exact fallbackQuery_noKey_eq sq argsortp generate T uq k qv hsort
  · unfold fallbackTopIdx
    rw [topIdx_length k hsort, simsOf_length]
  · intro i hi j hj hjn
    exact topIdx_optimal k hsort i hi j (by rw [simsOf_length]; exact hj) hjn

/-- C3 witness: a store stub whose native search always fails, on a concrete
two-row table. -/
theorem c3_native_unavailable_witness :
    embedQC uqC = .ok qvC
    ∧ tableSearchErrC qvC = .error "no native index"
    ∧ IsArgsortDesc (simsOf sqrtOneC TC qvC) (argsortAB (simsOf sqrtOneC TC qvC))
    ∧ (searchWithLancedb tableSearchErrC qvC 1 = none
       ∧ query sqrtOneC argsortAB tableSearchErrC genOkC false embedQC TC uqC 1
           = .ok (rawPayload uqC ((fallbackCtxs sqrtOneC argsortAB TC qvC 1).map PyVal.toJsonSafe))
       ∧ (fallbackTopIdx argsortAB (simsOf sqrtOneC TC qvC) 1).length = min 1 TC.length
       ∧ (fallbackTopIdx argsortAB (simsOf sqrtOneC TC qvC) 1).Pairwise
           (fun a b => (simsOf sqrtOneC TC qvC).getD b 0 ≤ (simsOf sqrtOneC TC qvC).getD a 0)
       ∧ ∀ i ∈ fallbackTopIdx argsortAB (simsOf sqrtOneC TC qvC) 1,
           ∀ j, j < TC.length → j ∉ fallbackTopIdx argsortAB (simsOf sqrtOneC TC qvC) 1 →
             (simsOf sqrtOneC TC qvC).getD j 0 ≤ (simsOf sqrtOneC TC qvC).getD i 0) :=
  ⟨rfl, rfl, argsortAB_valid,
    c3_native_unavailable_fallback sqrtOneC argsortAB tableSearchErrC genOkC embedQC TC uqC 1
      qvC "no native index" rfl rfl argsortAB_valid⟩

/-! ## C4 -/

/-- C4: on the brute-force retrieval path, `query` returns a payload with at
most `k` contexts and never more than the table has rows, and on an empty
table it returns `{"query": ..., "top_k": []}` without raising. -/
theorem c4_retrieval_bounds (sq : ℚ → ℚ) (argsortp : List ℚ → List ℕ)
    (tableSearch : List ℚ → Except String (List NativeHit))
    (generate : PyStr → PyStr → Except String PyStr)
    (embedQ : PyStr → Except String (List ℚ)) (T : List Row) (uq : PyStr)
    (k : ℕ) (qv : List ℚ) (e : String)
    (hembed : embedQ uq = .ok qv)
    (hsearch : tableSearch qv = .error e)
    (hsort : IsArgsortDesc (simsOf sq T qv) (argsortp (simsOf sq T qv))) :
    query sq argsortp tableSearch generate false embedQ T uq k
      = .ok (rawPayload uq ((fallbackCtxs sq argsortp T qv k).map PyVal.toJsonSafe))
    ∧ (fallbackCtxs sq argsortp T qv k).length ≤ k
    ∧ (fallbackCtxs sq argsortp T qv k).length ≤ T.length
    ∧ (T = [] → fallbackCtxs sq argsortp T qv k = []) := by
  have hnone : searchWithLancedb tableSearch qv k = none := by
    unfold searchWithLancedb
    rw [hsearch]
  have hlen : (fallbackCtxs sq argsortp T qv k).length = min k T.length := by
    unfold fallbackCtxs
    rw [List.length_map]
    show ((argsortp (simsOf sq T qv)).take k).length = min k T.length
    rw [topIdx_length k hsort, simsOf_length]
  refine ⟨?_, by rw [hlen]; exact min_le_left _ _, by rw [hlen]; exact min_le_right _ _, ?_⟩
  · rw [query_unfold sq argsortp tableSearch generate false embedQ T uq k qv hembed, hnone]
    exact fallbackQuery_noKey_eq sq argsortp generate T uq k qv hsort
  · intro hTnil
    subst hTnil
    exact fallbackCtxs_nil sq argsortp qv k hsort

/-- C4 witness: the bounds at a concrete two-row table with k = 1. -/
theorem c4_retrieval_bounds_witness :
    embedQC uqC = .ok qvC
    ∧ tableSearchErrC qvC = .error "no native index"
    ∧ IsArgsortDesc (simsOf sqrtOneC TC qvC) (argsortAB (simsOf sqrtOneC TC qvC))
    ∧ (query sqrtOneC argsortAB tableSearchErrC genFailC false embedQC TC uqC 1
         = .ok (rawPayload uqC ((fallbackCtxs sqrtOneC argsortAB TC qvC 1).map PyVal.toJsonSafe))
       ∧ (fallbackCtxs sqrtOneC argsortAB TC qvC 1).length ≤ 1
       ∧ (fallbackCtxs sqrtOneC argsortAB TC qvC 1).length ≤ TC.length
       ∧ (TC = [] → fallbackCtxs sqrtOneC argsortAB TC qvC 1 = [])) :=
  ⟨rfl, rfl, argsortAB_valid,
    c4_retrieval_bounds sqrtOneC argsortAB tableSearchErrC genFailC embedQC TC uqC 1 qvC
      "no native index" rfl rfl argsortAB_valid⟩

/-! ## C6 -/

/-- C6: with no generation capability configured (`openai.api_key` falsy),
`query` returns the raw-context payload `{"query": ..., "top_k": contexts}`
with at most `k` contexts, and the result is independent of the generation
capability, which is never invoked on this path. -/
theorem c6_no_generation_path (sq : ℚ → ℚ) (argsortp : List ℚ → List ℕ)
    (tableSearch : List ℚ → Except String (List NativeHit))
    (g1 g2 : PyStr → PyStr → Except String PyStr)
    (embedQ : PyStr → Except String (List ℚ)) (T : List Row) (uq : PyStr)
    (k : ℕ) (qv : List ℚ)
    (hembed : embedQ uq = .ok qv) :
    query sq argsortp tableSearch g1 false embedQ T uq k
      = .ok (rawPayload uq (retrieveCtxs sq argsortp tableSearch T qv k))
    ∧ (retrieveCtxs sq argsortp tableSearch T qv k).length ≤ k
    ∧ query sq argsortp tableSearch g1 false embedQ T uq k
        = query sq argsortp tableSearch g2 false embedQ T uq k :=
  ⟨query_noKey_eq sq argsortp tableSearch g1 embedQ T uq k qv hembed,
    retrieveCtxs_length_le sq argsortp tableSearch T qv k,
    (query_noKey_eq sq argsortp tableSearch g1 embedQ T uq k qv hembed).trans
      (query_noKey_eq sq argsortp tableSearch g2 embedQ T uq k qv hembed).symm⟩

/-- C6 witness: two different generation stubs (one failing) give the same
raw-context payload when no key is configured. -/
theorem c6_no_generation_witness :
    embedQC uqC = .ok qvC
    ∧ (query sqrtOneC argsortAB tableSearchOkC genOkC false embedQC TC uqC 1
         = .ok (rawPayload uqC (retrieveCtxs sqrtOneC argsortAB tableSearchOkC TC qvC 1))
       ∧ (retrieveCtxs sqrtOneC argsortAB tableSearchOkC TC qvC 1).length ≤ 1
       ∧ query sqrtOneC argsortAB tableSearchOkC genOkC false embedQC TC uqC 1
           = query sqrtOneC argsortAB tableSearchOkC genFailC false embedQC TC uqC 1) :=
  ⟨rfl, c6_no_generation_path sqrtOneC argsortAB tableSearchOkC genOkC genFailC embedQC TC uqC
    1 qvC rfl⟩

/-! ## C7 -/

/-- C7, counterexample: with a generation capability configured and failing,
`query` surfaces the bare propagated error (the OpenAI call in
`_generate_answer` is not wrapped in any handler), so no payload containing
the retrieved contexts and an error marker is returned — the retrieval work
is discarded, contrary to the claim. -/
theorem c7_error_marker_counterexample :
    query sqrtOneC argsortAB tableSearchOkC genFailC true embedQC TC uqC 1
      = .error "boom" := by
  rfl

/-- C7 (amended): if the generation call fails after retrieval succeeded,
the failure propagates bare to the caller and the retrieved contexts are
discarded (the source has no handler around the chat-completion call). -/
theorem c7_generation_failure_propagates (sq : ℚ → ℚ) (argsortp : List ℚ → List ℕ)
    (tableSearch : List ℚ → Except String (List NativeHit))
    (generate : PyStr → PyStr → Except String PyStr)
    (embedQ : PyStr → Except String (List ℚ)) (T : List Row) (uq : PyStr)
    (k : ℕ) (qv : List ℚ) (hits : List NativeHit) (ts : List PyStr) (e : String)
    (hembed : embedQ uq = .ok qv)
    (hsearch : tableSearch qv = .ok hits)
    (hne : (hits.take k).isEmpty = false)
    (hfmt : formatContexts ((nativeCtxs (hits.take k)).map PyVal.toJsonSafe) = .ok ts)
    (hgen : generate systemPromptText (userPromptText uq ts) = .error e) :
    query sq argsortp tableSearch generate true embedQ T uq k = .error e := by
  have hsw : searchWithLancedb tableSearch qv k = some (hits.take k) := by
    unfold searchWithLancedb
    rw [hsearch]
  rw [query_unfold sq argsortp tableSearch generate true embedQ T uq k qv hembed, hsw]
  dsimp only
  rw [if_neg (by rw [hne]; exact Bool.false_ne_true)]
  simp only [generateAnswer]
  rw [if_neg (by decide)]
  rw [hfmt]
  dsimp only
  rw [hgen]

/-- The formatted context line of the concrete scored hit. -/
def tsC : List PyStr :=
  ["Listing ID ".data ++ "h1".data ++ " (score=".data ++ fmt4 1 ++ "): ".data ++ "ft1".data]

/-- C7 witness: a concrete failing generation call after a successful native
retrieval. -/
theorem c7_generation_failure_witness :
    embedQC uqC = .ok qvC
    ∧ tableSearchOkC qvC = .ok [hitA]
    ∧ ([hitA].take 1).isEmpty = false
    ∧ formatContexts ((nativeCtxs ([hitA].take 1)).map PyVal.toJsonSafe) = .ok tsC
    ∧ genFailC systemPromptText (userPromptText uqC tsC) = .error "boom"
    ∧ query sqrtOneC argsortAB tableSearchOkC genFailC true embedQC TC uqC 1 = .error "boom" :=
  ⟨rfl, rfl, rfl, rfl, rfl,
    c7_generation_failure_propagates sqrtOneC argsortAB tableSearchOkC genFailC embedQC TC uqC 1
      qvC [hitA] tsC "boom" rfl rfl rfl rfl rfl⟩

/-! ## C8 -/

theorem payloadContexts_rawPayload (uq : PyStr) (ctxs : List PyVal) :
    payloadContexts (rawPayload uq ctxs) = ctxs := by
  have h1 : payloadContexts (rawPayload uq ctxs) = (PyVList.ofList ctxs).toList := rfl
  rw [h1, toList_ofList]

theorem payloadContexts_answer (ans : PyStr) (ctxs : List PyVal) :
    payloadContexts (PyVal.toJsonSafe (.pdict (PyVDict.ofPairs
      [("answer".data, .str ans), ("retrieved".data, .plist (.ofList ctxs))])))
      = ctxs.map PyVal.toJsonSafe := by
  have h1 : payloadContexts (PyVal.toJsonSafe (.pdict (PyVDict.ofPairs
      [("answer".data, .str ans), ("retrieved".data, .plist (.ofList ctxs))])))
      = ((PyVList.ofList ctxs).toJsonSafe).toList := rfl
  rw [h1, toJsonSafe_ofList, toList_ofList]

theorem noBoxed_of_generateAnswer {generate : PyStr → PyStr → Except String PyStr}
    {apiKey : Bool} {uq : PyStr} {ctxs0 : List PyVal} {p : PyVal}
    (h : generateAnswer generate apiKey uq ctxs0 = .ok p) :
    ∀ c ∈ payloadContexts p, PyVal.noBoxed c = true := by
  simp only [generateAnswer] at h
  by_cases hk : apiKey = false
  · rw [if_pos hk] at h
    injection h with h2
    subst h2
    intro c hc
    rw [payloadContexts_rawPayload] at hc
    obtain ⟨a, -, rfl⟩ := List.mem_map.mp hc
    exact noBoxed_toJsonSafe_val a
  · rw [if_neg hk] at h
    cases hf : formatContexts (ctxs0.map PyVal.toJsonSafe) with
    | error e => rw [hf] at h; cases h
    | ok ts =>
      rw [hf] at h
      dsimp only at h
      cases hg : generate systemPromptText (userPromptText uq ts) with
      | error e => rw [hg] at h; cases h
      | ok ans =>
        rw [hg] at h
        dsimp only at h
        injection h with h2
        subst h2
        intro c hc
        rw [payloadContexts_answer] at hc
        obtain ⟨a, -, rfl⟩ := List.mem_map.mp hc
        exact noBoxed_toJsonSafe_val a

theorem noBoxed_of_fallbackQuery {sq : ℚ → ℚ} {argsortp : List ℚ → List ℕ}
    {generate : PyStr → PyStr → Except String PyStr} {apiKey : Bool}
    {T : List Row} {uq : PyStr} {k : ℕ} {qv : List ℚ} {p : PyVal}
    (h : fallbackQuery sq argsortp generate apiKey T uq k qv = .ok p) :
    ∀ c ∈ payloadContexts p, PyVal.noBoxed c = true := by
  simp only [fallbackQuery] at h
  by_cases hT : T.isEmpty = true
  · rw [if_pos hT] at h
    injection h with h2
    subst h2
    intro c hc
    rw [payloadContexts_rawPayload] at hc
    exact absurd hc (List.not_mem_nil c)
  · rw [if_neg hT] at h
    exact noBoxed_of_generateAnswer h

/-- C8: every context record of every successfully returned query payload
(native or fallback path, with or without a configured generation
capability) contains no numpy boxed numeric anywhere: the contexts are built
from `str` / `float` / `int` conversions and always pass through
`_to_json_safe`, which eliminates `np.floating` / `np.integer` recursively. -/
theorem c8_contexts_native_primitives (sq : ℚ → ℚ) (argsortp : List ℚ → List ℕ)
    (tableSearch : List ℚ → Except String (List NativeHit))
    (generate : PyStr → PyStr → Except String PyStr) (apiKey : Bool)
    (embedQ : PyStr → Except String (List ℚ)) (T : List Row) (uq : PyStr)
    (k : ℕ) (p : PyVal)
    (h : query sq argsortp tableSearch generate apiKey embedQ T uq k = .ok p) :
    ∀ c ∈ payloadContexts p, PyVal.noBoxed c = true := by
  unfold query at h
  cases hq : embedQ uq with
  | error e => rw [hq] at h; cases h
  | ok qv =>
    rw [hq] at h
    dsimp only at h
    cases hs : searchWithLancedb tableSearch qv k with
    | none =>
      rw [hs] at h
      dsimp only at h
      exact noBoxed_of_fallbackQuery h
    | some hits =>
      rw [hs] at h
      dsimp only at h
      by_cases he : hits.isEmpty = true
      · rw [if_pos he] at h
        exact noBoxed_of_fallbackQuery h
      · rw [if_neg he] at h
        exact noBoxed_of_generateAnswer h

/-- C8 witness: a concrete native-path query whose single context is free of
boxed numerics. -/
theorem c8_contexts_native_witness :
    query sqrtOneC argsortAB tableSearchOkC genOkC false embedQC TC uqC 1
      = .ok (rawPayload uqC ((nativeCtxs [hitA]).map PyVal.toJsonSafe))
    ∧ PyVal.noBoxed (PyVal.toJsonSafe (mkNativeContext hitA)) = true := by
  have h : query sqrtOneC argsortAB tableSearchOkC genOkC false embedQC TC uqC 1
      = .ok (rawPayload uqC ((nativeCtxs [hitA]).map PyVal.toJsonSafe)) := rfl
  refine ⟨h, c8_contexts_native_primitives sqrtOneC argsortAB tableSearchOkC genOkC false
    embedQC TC uqC 1 _ h (PyVal.toJsonSafe (mkNativeContext hitA)) ?_⟩
  rw [payloadContexts_rawPayload]
  exact List.mem_singleton.mpr rfl

/-! ## C9 -/

/-- C9: `make_full_text` returns a non-empty string on every raw record
(even with all fields missing); the `Area:` segment is one of the kept parts
exactly when `neighborhood_description` is present and truthy; and a record
lacking `neighborhood_description` produces the same full text — hence the
same listing id — as the same record carrying it as the empty string. -/
theorem c9_make_full_text_properties (hash : PyStr → PyStr) (raw : Raw) :
    makeFullText raw ≠ []
    ∧ ((∃ pp ∈ (makeFullTextParts raw).filter (fun p => !p.isEmpty),
          "Area: ".data <+: pp) ↔ truthy raw.neighborhood_description = true)
    ∧ makeFullText { raw with neighborhood_description := none }
        = makeFullText { raw with neighborhood_description := some [] }
    ∧ computeListingId hash (makeFullText { raw with neighborhood_description := none })
        = computeListingId hash (makeFullText { raw with neighborhood_description := some [] }) := by
  have heq : makeFullText { raw with neighborhood_description := none }
      = makeFullText { raw with neighborhood_description := some [] } := rfl
  have hfilter : ∃ rest, (makeFullTextParts raw).filter (fun p => !p.isEmpty)
      = ("Neighborhood: ".data ++ renderOptStr raw.neighborhood) :: rest := ⟨_, rfl⟩
  obtain ⟨rest, hf⟩ := hfilter
  obtain ⟨rest2, hj⟩ := pyJoin_cons_eq ". ".data ("Neighborhood: ".data ++ renderOptStr raw.neighborhood) rest
  have hne : makeFullText raw ≠ [] := by
    unfold makeFullText
    rw [hf, hj]
    apply pyStrip_ne_nil
    refine ⟨'N', ?_, by decide⟩
    exact List.mem_append.mpr (Or.inl (List.mem_append.mpr (Or.inl (by decide))))
  have hiff : (∃ pp ∈ (makeFullTextParts raw).filter (fun p => !p.isEmpty),
      "Area: ".data <+: pp) ↔ truthy raw.neighborhood_description = true := by
    constructor
    · rintro ⟨pp, hppmem, hpre⟩
      by_contra hnt
      have hnt2 : truthy raw.neighborhood_description = false := by
        cases htv : truthy raw.neighborhood_description
        · rfl
        · exact absurd htv hnt
      have hin := (List.mem_filter.mp hppmem).1
      have hne2 := (List.mem_filter.mp hppmem).2
      simp only [makeFullTextParts, hnt2, Bool.false_eq_true, if_false,
        List.mem_cons, List.not_mem_nil, or_false] at hin
      obtain ⟨t, ht⟩ := hpre
      rcases hin with rfl | rfl | rfl | rfl | rfl | rfl
      · injection ht with h1 _
        exact absurd h1 (by decide)
      · simp at hne2
      · injection ht with h1 _
        exact absurd h1 (by decide)
      · injection ht with h1 _
        exact absurd h1 (by decide)
      · injection ht with h1 _
        exact absurd h1 (by decide)
      · injection ht with h1 _
        exact absurd h1 (by decide)
    · intro htruthy
      refine ⟨"Area: ".data ++ renderOptStr raw.neighborhood_description, ?_,
        ⟨renderOptStr raw.neighborhood_description, rfl⟩⟩
      apply List.mem_filter.mpr
      refine ⟨?_, rfl⟩
      simp [makeFullTextParts, htruthy]
  exact ⟨hne, hiff, heq, congrArg hash heq⟩

/-! ## C10 -/

/-- C10: on the native-search path, when the result rows have no `score`
column, every context record of the returned payload carries `score = None`
(the key is present, its value is the Python `None`), not a number and not
an omitted key. Stated on the raw-context payload path. -/
theorem c10_missing_score_none (sq : ℚ → ℚ) (argsortp : List ℚ → List ℕ)
    (tableSearch : List ℚ → Except String (List NativeHit))
    (generate : PyStr → PyStr → Except String PyStr)
    (embedQ : PyStr → Except String (List ℚ)) (T : List Row) (uq : PyStr)
    (k : ℕ) (qv : List ℚ) (hits : List NativeHit)
    (hembed : embedQ uq = .ok qv)
    (hsearch : tableSearch qv = .ok hits)
    (hne : (hits.take k).isEmpty = false)
    (hnoscore : ∀ h2 ∈ hits, h2.score = none) :
    query sq argsortp tableSearch generate false embedQ T uq k
      = .ok (rawPayload uq ((nativeCtxs (hits.take k)).map PyVal.toJsonSafe))
    ∧ ∀ c ∈ (nativeCtxs (hits.take k)).map PyVal.toJsonSafe,
        dictGet c ("score".data) = some PyVal.pynone := by
  have hsw : searchWithLancedb tableSearch qv k = some (hits.take k) := by
    unfold searchWithLancedb
    rw [hsearch]
  constructor
  · rw [query_unfold sq argsortp tableSearch generate false embedQ T uq k qv hembed, hsw]
    dsimp only
    rw [if_neg (by rw [hne]; exact Bool.false_ne_true)]
    exact generateAnswer_noKey generate uq _
  · intro c hc
    obtain ⟨c0, hc0, rfl⟩ := List.mem_map.mp hc
    simp only [nativeCtxs] at hc0
    obtain ⟨h2, hh2, rfl⟩ := List.mem_map.mp hc0
    have hsc : h2.score = none := hnoscore h2 (List.take_subset k hits hh2)
    have h1 : dictGet (PyVal.toJsonSafe (mkNativeContext h2)) ("score".data)
        = some (PyVal.toJsonSafe (match h2.score with
            | some v => PyVal.float (pyFloat v)
            | none => PyVal.pynone)) := rfl
    rw [h1, hsc]
    rfl

/-- C10 witness: a concrete native result with one hit and no score
column. -/
theorem c10_missing_score_witness :
    embedQC uqC = .ok qvC
    ∧ tableSearchNoScoreC qvC = .ok [hitN]
    ∧ ([hitN].take 1).isEmpty = false
    ∧ (∀ h2 ∈ [hitN], h2.score = none)
    ∧ (query sqrtOneC argsortAB tableSearchNoScoreC genOkC false embedQC TC uqC 1
         = .ok (rawPayload uqC ((nativeCtxs ([hitN].take 1)).map PyVal.toJsonSafe))
       ∧ ∀ c ∈ (nativeCtxs ([hitN].take 1)).map PyVal.toJsonSafe,
           dictGet c ("score".data) = some PyVal.pynone) := by
  have hns : ∀ h2 ∈ [hitN], h2.score = none := by
    intro h2 hh
    rw [List.mem_singleton] at hh
    subst hh
    rfl
  exact ⟨rfl, rfl, rfl, hns,
    c10_missing_score_none sqrtOneC argsortAB tableSearchNoScoreC genOkC embedQC TC uqC 1 qvC
      [hitN] rfl rfl rfl hns⟩

end RealEstateRAG
